import Mathlib

/-!
# kdudkov/alice: hub items, voice-assistant devices and the request handlers

A shallow embedding of `devices.go`, `mahno_api.go` and the handler loops of
`main.go`, followed by theorems about the translation of hub items into
devices, the query and action handlers and the item cache.

Modelling conventions

* Go's `any` is the tagged type `Any`; the code only ever asks whether a
  value is a `bool`.
* A pointer that can be nil is an `Option`: `*Capability`, `*State`,
  `*ActionResult`, and the elements of the decoded slices `[]*Item` and
  `[]*DevReq`, which are nil where the JSON array holds `null`.  The loops
  dereference these elements unguarded, so `none` makes them panic.
* The handlers are modelled on a decoded request body; routing, token checks,
  logging and the mutex are left out.
* `*Device` values are shared between the device map and the response slice,
  and `GetAction` writes through them, so devices live in an explicit heap
  (`List Device`, address = position) and the map and the response hold
  addresses.
* A function that returns `(T, error)` returns `Result T`; `Result.panic`
  is a run-time panic (index out of range, nil dereference).
* The hub is an explicit state: the replies it gives to successive
  `AllItems` calls, the error (if any) it gives to a write, and the log of
  the calls issued so far.
-/

namespace Alice

/-! ## Values and results -/

/-- Go's `any` as decoded from JSON.  `composite` stands for arrays and
objects, whose contents the program never inspects. -/
inductive Any where
  | null
  | bool (b : Bool)
  | number (q : ℚ)
  | str (s : String)
  | composite
  deriving DecidableEq, Repr

/-- Outcome of a Go call returning `(T, error)`. -/
inductive Result (α : Type) where
  | ok (val : α)
  | fail (err : String)
  | panic
  deriving DecidableEq, Repr

/-! ## Go maps with string keys -/

/-- A `map[string]α`: association list without repeated keys. -/
abbrev GoMap (α : Type) := List (String × α)

/-- Lookup `m[k]` with the comma-ok flag folded into the `Option`. -/
def GoMap.get {α : Type} : GoMap α → String → Option α
  | [], _ => none
  | (k', v) :: rest, k => if k' = k then some v else GoMap.get rest k

/-- Assignment `m[k] = v`: replaces the binding of `k` when there is one. -/
def GoMap.set {α : Type} : GoMap α → String → α → GoMap α
  | [], k, v => [(k, v)]
  | (k', v') :: rest, k, v =>
    if k' = k then (k, v) :: rest else (k', v') :: GoMap.set rest k v

/-- Keys of the map. -/
def GoMap.keys {α : Type} (m : GoMap α) : List String := m.map Prod.fst

/-! ## devices.go -/

structure ActionResult where
  Status : String
  ErrorCode : String
  ErrorMessage : String
  deriving DecidableEq, Repr

structure State where
  Instance : String
  Value : Any
  ActionResult : Option ActionResult
  deriving DecidableEq, Repr

structure Capability where
  Type_ : String
  State : Option State
  deriving DecidableEq, Repr

structure Device where
  Id : String
  Name : String
  Description : String
  Room : String
  Type_ : String
  CustomData : Any
  Capabilities : List (Option Capability)
  Properties : GoMap Any
  ErrorCode : String
  ErrorMessage : String
  deriving DecidableEq, Repr

structure DevReq where
  Id : String
  CustomData : Any
  Capabilities : List (Option Capability)
  deriving DecidableEq, Repr

/-- The `ActionReq` body: `Payload.Devices`, a `[]*DevReq`. -/
structure ActionReq where
  Devices : List (Option DevReq)
  deriving DecidableEq, Repr

structure StateReq where
  Devices : List (Option DevReq)
  deriving DecidableEq, Repr

/-- The call `strings.ReplaceAll(s, old, new)` for one-character `old` and
`new`, the only way the program uses it (`"_"` to `" "`). -/
def ReplaceAll (s : String) (old new : Char) : String :=
  String.mk (s.data.map (fun c => if c = old then new else c))

def NewSwitch (id name room : String) : Device :=
  { Id := id
    Name := ReplaceAll id '_' ' '
    Description := name
    Room := room
    Type_ := "devices.types.switch"
    CustomData := Any.null
    Capabilities := [some { Type_ := "devices.capabilities.on_off", State := none }]
    Properties := []
    ErrorCode := ""
    ErrorMessage := "" }

/-- Method `(c *Capability) SetVal`: a nil receiver is left alone. -/
def Capability.SetVal (c : Option Capability) (name : String) (val : Any) :
    Option Capability :=
  match c with
  | none => none
  | some c =>
    some { c with State := some { Instance := name, Value := val, ActionResult := none } }

/-- Method `(c *Capability) SetValOk`. -/
def Capability.SetValOk (c : Option Capability) (name : String) (val : Any) :
    Option Capability :=
  match c with
  | none => none
  | some c =>
    some { c with
      State := some
        { Instance := name
          Value := val
          ActionResult := some { Status := "DONE", ErrorCode := "", ErrorMessage := "" } } }

/-- Method `(c *Capability) GetBool`: the value and the ok flag. -/
def Capability.GetBool (c : Option Capability) (name : String) : Bool × Bool :=
  match c with
  | none => (false, false)
  | some c =>
    match c.State with
    | none => (false, false)
    | some s =>
      if s.Instance = name then
        match s.Value with
        | Any.bool b => (b, true)
        | _ => (false, false)
      else (false, false)

/-! ## mahno_api.go -/

/-- The fields of `Item` other than the timestamps and `Meta`, which no code
of the program reads. -/
structure Item where
  Name : String
  Type_ : String
  HumanName : String
  Value : String
  RawValue : Any
  FormattedValue : String
  Good : Bool
  UI : Bool
  Tags : List String
  Groups : List String
  deriving DecidableEq, Repr

/-- One `ItemCommand` call as seen by the hub: the item, the payload and the
error the call returned (`none` for `nil`). -/
structure HubWrite where
  item : String
  cmd : String
  err : Option String
  deriving DecidableEq, Repr

/-- The hub behind the `MahnoApi` interface.  `allItems n` is what the
`n`-th `AllItems` call returns, `itemCommand item cmd` the error of a write;
`reads` counts the `AllItems` calls issued and `writes` logs the
`ItemCommand` calls, oldest first. -/
structure Hub where
  allItems : Nat → Result (List (Option Item))
  itemCommand : String → String → Option String
  reads : Nat
  writes : List HubWrite

/-- Call `api.AllItems()`. -/
def Hub.AllItems (h : Hub) : Result (List (Option Item)) × Hub :=
  (h.allItems h.reads, { h with reads := h.reads + 1 })

/-- Call `api.ItemCommand(item, cmd)`. -/
def Hub.ItemCommand (h : Hub) (item cmd : String) : Option String × Hub :=
  (h.itemCommand item cmd,
   { h with writes := h.writes ++ [⟨item, cmd, h.itemCommand item cmd⟩] })

/-! ## main.go -/

/-- A `time.Time`/`time.Duration` in nanoseconds; the zero `time.Time` is `0`. -/
abbrev Time := Int

/-- The constant `time.Minute`. -/
def Minute : Int := 60 * 1000000000

/-- The `App` struct without its logger and mutex: the hub behind `api`, the
item cache and its timestamp. -/
structure App where
  api : Hub
  items : GoMap Item
  lastChange : Time

/-- What `NewApp` builds around a hub: nil item map, zero timestamp. -/
def NewApp (api : Hub) : App := { api := api, items := [], lastChange := 0 }

/-- Address of a `Device` object. -/
abbrev Addr := Nat

/-- The `Device` objects allocated while serving a request; `&Device{...}`
appends one and yields its position. -/
abbrev Heap := List Device

/-- The `map[string]*Device` built by `FetchDevices` together with the
objects its pointers refer to. -/
structure Snapshot where
  heap : Heap
  dev : GoMap Addr
  deriving DecidableEq, Repr

/-- The device a snapshot stores under a key: `*dev[k]`. -/
def Snapshot.lookup (s : Snapshot) (k : String) : Option Device :=
  match s.dev.get k with
  | none => none
  | some a => s.heap[a]?

/-- Run a loop body over a slice, stopping at the first error or panic. -/
def Result.forEach {σ α : Type} (f : σ → α → Result σ) : σ → List α → Result σ
  | s, [] => Result.ok s
  | s, x :: xs =>
    match f s x with
    | Result.ok s' => Result.forEach f s' xs
    | Result.fail e => Result.fail e
    | Result.panic => Result.panic

/-- The statement `d.Capabilities[0].m(...)` for a pointer-receiver method
`m` acting as `f`: panics on an empty slice. -/
def Device.onCap0 (d : Device) (f : Option Capability → Option Capability) :
    Result Device :=
  match d.Capabilities with
  | [] => Result.panic
  | c :: cs => Result.ok { d with Capabilities := f c :: cs }

/-- Body of the `for _, i := range items` loop of `FetchDevices`; `i` is a
`*Item` and `i.Type_` on a nil element panics. -/
def FetchDevices.step (s : Snapshot) (i : Option Item) : Result Snapshot :=
  match i with
  | none => Result.panic
  | some i =>
    if i.Type_ = "switch" then
      let sw := NewSwitch i.Name i.HumanName ""
      let sw' :=
        match i.RawValue with
        | Any.bool v => sw.onCap0 (fun c => Capability.SetVal c "on" (Any.bool v))
        | _ => Result.ok sw
      match sw' with
      | Result.ok sw =>
        Result.ok { heap := s.heap ++ [sw], dev := s.dev.set sw.Id s.heap.length }
      | Result.fail e => Result.fail e
      | Result.panic => Result.panic
    else Result.ok s

/-- The part of `FetchDevices` after the error check: `dev := make(...)` and
the loop over the items. -/
def FetchDevices.build (items : List (Option Item)) : Result Snapshot :=
  Result.forEach FetchDevices.step { heap := [], dev := [] } items

/-- Method `(app *App) FetchDevices`. -/
def App.FetchDevices (app : App) : Result Snapshot × App :=
  match app.api.AllItems with
  | (Result.ok items, api) => (FetchDevices.build items, { app with api := api })
  | (Result.fail e, api) => (Result.fail e, { app with api := api })
  | (Result.panic, api) => (Result.panic, { app with api := api })

/-- The loop `for _, i := range items { app.items[i.Name] = i }` of
`GetItem`: the map it leaves in `app.items` and whether it panicked on a nil
element. -/
def GetItem.fill : GoMap Item → List (Option Item) → GoMap Item × Bool
  | m, [] => (m, false)
  | m, none :: _ => (m, true)
  | m, some i :: rest => GetItem.fill (m.set i.Name i) rest

/-- Method `(app *App) GetItem`, called at clock reading `now`. -/
def App.GetItem (app : App) (now : Time) (name : String) : Result (Option Item) × App :=
  if app.lastChange + Minute < now then
    match app.api.AllItems with
    | (Result.ok items, api) =>
      let filled := GetItem.fill [] items
      if filled.2 then (Result.panic, { app with api := api, items := filled.1 })
      else (Result.ok (filled.1.get name), { app with api := api, items := filled.1 })
    | (Result.fail e, api) => (Result.fail e, { app with api := api })
    | (Result.panic, api) => (Result.panic, { app with api := api })
  else (Result.ok (app.items.get name), app)

def OnOff (a : Bool) : String := if a then "On" else "Off"

/-- Body of the `for _, i := range req.Devices` loop of `GetQuery`; `i` is a
`*DevReq` and `i.Id` on a nil element panics. -/
def GetQuery.step (dev : GoMap Addr) (devOut : List Addr) (i : Option DevReq) :
    Result (List Addr) :=
  match i with
  | none => Result.panic
  | some i =>
    match dev.get i.Id with
    | some d => Result.ok (devOut ++ [d])
    | none => Result.ok devOut

/-- The loop of `GetQuery`: the pointers appended to `devOut`. -/
def GetQuery.loop (dev : GoMap Addr) (reqs : List (Option DevReq)) : Result (List Addr) :=
  Result.forEach (GetQuery.step dev) [] reqs

/-- What `ctx.JSON` writes for `devOut`: every pointer is read when the
response is serialised, after the handler's loop. -/
def render (heap : Heap) : List Addr → Result (List Device)
  | [] => Result.ok []
  | a :: rest =>
    match heap[a]?, render heap rest with
    | some d, Result.ok ds => Result.ok (d :: ds)
    | _, Result.fail e => Result.fail e
    | _, _ => Result.panic

/-- The handler of `GetQuery` on a decoded body: the `devices` of the
response, the error answered with status 500, or a panic, after which no
response is written (the router has no recovery handler). -/
def App.GetQuery (app : App) (req : StateReq) : Result (List Device) × App :=
  match app.FetchDevices with
  | (Result.ok snap, app') =>
    match GetQuery.loop snap.dev req.Devices with
    | Result.ok devOut => (render snap.heap devOut, app')
    | Result.fail e => (Result.fail e, app')
    | Result.panic => (Result.panic, app')
  | (Result.fail e, app') => (Result.fail e, app')
  | (Result.panic, app') => (Result.panic, app')

/-- State of the `GetAction` loop: the device objects, `devOut`, the hub, and
whether the handler has panicked. -/
structure ActionRun where
  heap : Heap
  devOut : List Addr
  api : Hub
  panicked : Bool

/-- Body of the `for _, i := range req.Payload.Devices` loop of `GetAction`;
`i` is a `*DevReq` and `len(i.Capabilities)` on a nil element panics.  Once
the handler has panicked nothing more runs. -/
def GetAction.step (dev : GoMap Addr) (st : ActionRun) (i : Option DevReq) : ActionRun :=
  if st.panicked then st else
  match i with
  | none => { st with panicked := true }
  | some i =>
    match i.Capabilities with
    | [] => st
    | c0 :: _ =>
      match Capability.GetBool c0 "on" with
      | (v, true) =>
        match dev.get i.Id with
        | some a =>
          -- the error returned by ItemCommand is not bound to anything
          let api := (st.api.ItemCommand i.Id (OnOff v)).2
          match st.heap[a]? with
          | none => { st with api := api, panicked := true }
          | some d =>
            match d.onCap0 (fun c => Capability.SetValOk c "on" (Any.bool v)) with
            | Result.ok d' =>
              { st with heap := st.heap.set a d', devOut := st.devOut ++ [a], api := api }
            | _ => { st with api := api, panicked := true }
        | none => st
      | (_, false) => st

/-- The whole loop of `GetAction`. -/
def GetAction.loop (dev : GoMap Addr) (st : ActionRun) (reqs : List (Option DevReq)) :
    ActionRun :=
  reqs.foldl (GetAction.step dev) st

/-- The handler of `GetAction` on a decoded body: the `devices` of the
response, the error answered with status 500, or a panic, after which no
response is written; the hub keeps the writes issued before the panic. -/
def App.GetAction (app : App) (req : ActionReq) : Result (List Device) × App :=
  match app.FetchDevices with
  | (Result.ok snap, app') =>
    let run := GetAction.loop snap.dev
      { heap := snap.heap, devOut := [], api := app'.api, panicked := false } req.Devices
    if run.panicked then (Result.panic, { app' with api := run.api })
    else (render run.heap run.devOut, { app' with api := run.api })
  | (Result.fail e, app') => (Result.fail e, app')
  | (Result.panic, app') => (Result.panic, app')

/-! ## Auxiliary definitions for the statements

Total forms of the loop bodies, the predicates used in the statements and the
concrete inputs of the examples. -/

/-- The device the loop of `FetchDevices` stores for a switch item. -/
def switchDevice (i : Item) : Device :=
  { NewSwitch i.Name i.HumanName "" with
    Capabilities :=
      [some
        { Type_ := "devices.capabilities.on_off"
          State :=
            match i.RawValue with
            | Any.bool v => some { Instance := "on", Value := Any.bool v, ActionResult := none }
            | _ => none }] }

/-- The loop body of `FetchDevices` as a total function. -/
def fetchStep (s : Snapshot) (i : Item) : Snapshot :=
  if i.Type_ = "switch" then
    { heap := s.heap ++ [switchDevice i], dev := s.dev.set i.Name s.heap.length }
  else s

/-- Every pointer of the map refers to an allocated object. -/
def Snapshot.Bounded (s : Snapshot) : Prop :=
  ∀ k a, s.dev.get k = some a → a < s.heap.length

/-- The snapshot `FetchDevices` builds from an item list. -/
def snapshotOf (items : List Item) : Snapshot :=
  items.foldl fetchStep { heap := [], dev := [] }

/-- The boolean `on` value carried by the first capability of an entry. -/
def DevReq.onValue (i : DevReq) : Option Bool :=
  match i.Capabilities with
  | some c :: _ =>
    match c.State with
    | some s =>
      if s.Instance = "on" then
        match s.Value with
        | Any.bool b => some b
        | _ => none
      else none
    | none => none
  | _ => none

/-- An entry the action loop acts on: the device address and the value. -/
def recog (dev : GoMap Addr) (i : DevReq) : Option (Addr × Bool) :=
  match i.onValue, dev.get i.Id with
  | some v, some a => some (a, v)
  | _, _ => none

/-- Effect of `d.Capabilities[0].SetValOk("on", v)` on a device with a capability. -/
def markOk (v : Bool) (d : Device) : Device :=
  match d.Capabilities with
  | [] => d
  | c :: cs => { d with Capabilities := Capability.SetValOk c "on" (Any.bool v) :: cs }

/-- The loop body of `GetAction` on a snapshot whose devices have a capability. -/
def actionStep (dev : GoMap Addr) (st : ActionRun) (i : DevReq) : ActionRun :=
  match recog dev i with
  | none => st
  | some (a, v) =>
    { heap := match st.heap[a]? with
        | some d => st.heap.set a (markOk v d)
        | none => st.heap
      devOut := st.devOut ++ [a]
      api := (st.api.ItemCommand i.Id (OnOff v)).2
      panicked := st.panicked }

/-- A device object with the given id and a non-nil first capability. -/
def Live (id : String) (o : Option Device) : Prop :=
  ∃ d c cs, o = some d ∧ d.Id = id ∧ d.Capabilities = some c :: cs

/-- A device object with the given id whose first capability reports
`on = v` with action result `DONE`. -/
def DoneWith (id : String) (v : Bool) (o : Option Device) : Prop :=
  ∃ d c cs, o = some d ∧ d.Id = id ∧ d.Capabilities = some c :: cs ∧
    c.State = some
      { Instance := "on", Value := Any.bool v,
        ActionResult := some { Status := "DONE", ErrorCode := "", ErrorMessage := "" } }

/-- Every pointer of the map refers to a device of that id with a capability. -/
def Ready (dev : GoMap Addr) (heap : Heap) : Prop :=
  ∀ k a, dev.get k = some a → Live k heap[a]?

/-- The first capability of the entry has a state with instance `on` and a
boolean value `v`. -/
def DevReq.Carries (i : DevReq) (v : Bool) : Prop :=
  ∃ c cs s, i.Capabilities = some c :: cs ∧ c.State = some s ∧ s.Instance = "on" ∧
    s.Value = Any.bool v

/-- An entry that carries a boolean `on` value and names a key of the map. -/
def DevReq.recognized (keys : List String) (i : DevReq) : Bool :=
  i.onValue.isSome && decide (i.Id ∈ keys)

/-- The state in which the action loop ends. -/
def actionEnd (app : App) (items : List Item) (reqs : List DevReq) : ActionRun :=
  reqs.foldl (actionStep (snapshotOf items).dev)
    { heap := (snapshotOf items).heap, devOut := [],
      api := { app.api with reads := app.api.reads + 1 }, panicked := false }

/-- A hub item with the given name, type and raw value. -/
def mkItem (name type_ human : String) (raw : Any) : Item :=
  { Name := name, Type_ := type_, HumanName := human, Value := "", RawValue := raw,
    FormattedValue := "", Good := true, UI := true, Tags := [], Groups := [] }

/-- The switch item `sw_kitchen` of the examples. -/
def kitchen (raw : Any) : Item := mkItem "sw_kitchen" "switch" "Kitchen" raw

/-- An action entry asking to set `on` to `v` on the device `id`. -/
def turn (id : String) (v : Bool) : DevReq :=
  { Id := id, CustomData := Any.null,
    Capabilities :=
      [some
        { Type_ := "devices.capabilities.on_off"
          State := some { Instance := "on", Value := Any.bool v, ActionResult := none } }] }

/-- The device of `sw_kitchen` with the given state of its capability. -/
def kitchenDevice (st : Option State) : Device :=
  { Id := "sw_kitchen", Name := "sw kitchen", Description := "Kitchen", Room := "",
    Type_ := "devices.types.switch", CustomData := Any.null,
    Capabilities := [some { Type_ := "devices.capabilities.on_off", State := st }],
    Properties := [], ErrorCode := "", ErrorMessage := "" }

/-- The state written by `SetValOk("on", v)`. -/
def doneState (v : Bool) : State :=
  { Instance := "on", Value := Any.bool v,
    ActionResult := some { Status := "DONE", ErrorCode := "", ErrorMessage := "" } }

/-- A hub that answers every read with the array `reply` and every write with
`err`. -/
def replyHub (reply : List (Option Item)) (err : Option String) : Hub :=
  { allItems := fun _ => Result.ok reply, itemCommand := fun _ _ => err, reads := 0,
    writes := [] }

/-- A hub that answers every read with the items `items`, none of them null,
and every write with `err`. -/
def fixedHub (items : List Item) (err : Option String) : Hub :=
  replyHub (items.map some) err

/-- A hub on which `sw_kitchen` is on at the first read and off afterwards. -/
def changingHub : Hub :=
  { allItems := fun n =>
      if n = 0 then Result.ok [some (kitchen (Any.bool true))]
      else Result.ok [some (kitchen (Any.bool false))]
    itemCommand := fun _ _ => none, reads := 0, writes := [] }

/-- A hub whose reads fail. -/
def deadHub : Hub :=
  { allItems := fun _ => Result.fail "connection refused", itemCommand := fun _ _ => none,
    reads := 0, writes := [] }

/-- A clock reading late in the year 2024. -/
def someNow : Time := 63866000000000000000

/-- The item list of the examples: a temperature sensor, the kitchen switch
(on) and a porch switch whose raw value is a string. -/
def demoItems : List Item :=
  [mkItem "t_hall" "temperature" "Hall" (Any.number 21), kitchen (Any.bool true),
   mkItem "sw_porch" "switch" "Porch" (Any.str "On")]

/-- An application in front of a hub that serves `demoItems`. -/
def demoApp : App := NewApp (fixedHub demoItems none)

/-- An application with a cached item in front of a hub whose reads fail. -/
def staleApp : App :=
  { api := deadHub, items := [("sw_kitchen", kitchen (Any.bool true))], lastChange := 0 }

/-! ## Lemmas and theorems -/

theorem GoMap.get_set_self {α : Type} (m : GoMap α) (k : String) (v : α) :
    (m.set k v).get k = some v := by
  induction m with
  | nil => simp [GoMap.set, GoMap.get]
  | cons p rest ih =>
    obtain ⟨k', v'⟩ := p
    by_cases h : k' = k
    · simp [GoMap.set, GoMap.get, h]
    · simp [GoMap.set, GoMap.get, h, ih]

theorem GoMap.get_set_ne {α : Type} (m : GoMap α) (k k' : String) (v : α) (h : k ≠ k') :
    (m.set k v).get k' = m.get k' := by
  induction m with
  | nil => simp [GoMap.set, GoMap.get, h]
  | cons p rest ih =>
    obtain ⟨k₀, v₀⟩ := p
    by_cases h₀ : k₀ = k
    · subst h₀
      simp [GoMap.set, GoMap.get, h]
    · by_cases h₁ : k₀ = k'
      · subst h₁
        simp [GoMap.set, GoMap.get, h₀]
      · simp [GoMap.set, GoMap.get, h₀, h₁, ih]

theorem GoMap.mem_keys_set {α : Type} (m : GoMap α) (k x : String) (v : α) :
    x ∈ (m.set k v).keys ↔ x = k ∨ x ∈ m.keys := by
  induction m with
  | nil => simp [GoMap.set, GoMap.keys]
  | cons p rest ih =>
    obtain ⟨k₀, v₀⟩ := p
    by_cases h₀ : k₀ = k
    · subst h₀
      simp [GoMap.set, GoMap.keys]
    · simp only [GoMap.keys] at ih
      simp [GoMap.set, GoMap.keys, h₀, ih]
      tauto

theorem GoMap.get_eq_none_iff {α : Type} (m : GoMap α) (k : String) :
    m.get k = none ↔ k ∉ m.keys := by
  induction m with
  | nil => simp [GoMap.get, GoMap.keys]
  | cons p rest ih =>
    obtain ⟨k₀, v₀⟩ := p
    by_cases h₀ : k₀ = k
    · simp [GoMap.get, GoMap.keys, h₀]
    · have h₁ : ¬ k = k₀ := fun h => h₀ h.symm
      have hk : GoMap.keys ((k₀, v₀) :: rest) = k₀ :: GoMap.keys rest := rfl
      rw [hk, List.mem_cons]
      simp [GoMap.get, h₀, h₁, ih]

theorem GoMap.mem_keys_iff {α : Type} (m : GoMap α) (k : String) :
    k ∈ m.keys ↔ ∃ a, m.get k = some a := by
  rw [← not_iff_not, ← GoMap.get_eq_none_iff]
  cases h : m.get k <;> simp

theorem GoMap.keys_set_nodup {α : Type} (m : GoMap α) (k : String) (v : α)
    (h : m.keys.Nodup) : (m.set k v).keys.Nodup := by
  induction m with
  | nil => simp [GoMap.set, GoMap.keys]
  | cons p rest ih =>
    obtain ⟨k₀, v₀⟩ := p
    have h' : k₀ ∉ GoMap.keys rest ∧ (GoMap.keys rest).Nodup := by
      simpa [GoMap.keys] using h
    by_cases h₀ : k₀ = k
    · subst h₀
      simpa [GoMap.set, GoMap.keys] using h
    · have hs := ih h'.2
      have hm : k₀ ∉ GoMap.keys (GoMap.set rest k v) := by
        rw [GoMap.mem_keys_set]
        tauto
      simp only [GoMap.keys] at hs hm
      simp [GoMap.set, GoMap.keys, h₀, hs]
      simpa using hm

theorem FetchDevices_step_total (s : Snapshot) (i : Item) :
    FetchDevices.step s (some i) = Result.ok (fetchStep s i) := by
  unfold FetchDevices.step fetchStep
  by_cases h : i.Type_ = "switch"
  · cases hv : i.RawValue <;>
      simp [h, hv, switchDevice, NewSwitch, Device.onCap0, Capability.SetVal]
  · simp [h]

/-- A loop over a slice without nil elements whose body always succeeds. -/
theorem Result.forEach_ok {σ α : Type} (f : σ → Option α → Result σ) (g : σ → α → σ)
    (h : ∀ s x, f s (some x) = Result.ok (g s x)) (s : σ) (xs : List α) :
    Result.forEach f s (xs.map some) = Result.ok (xs.foldl g s) := by
  induction xs generalizing s with
  | nil => rfl
  | cons x xs ih => simp [Result.forEach, h, ih]

/-- A loop whose body panics on nil completes only on a slice without nil
elements. -/
theorem Result.forEach_ok_inv {σ α : Type} (f : σ → Option α → Result σ) (g : σ → α → σ)
    (h : ∀ s x, f s (some x) = Result.ok (g s x)) (hn : ∀ s, f s none = Result.panic)
    (l : List (Option α)) (s s' : σ) (hl : Result.forEach f s l = Result.ok s') :
    ∃ xs : List α, l = xs.map some ∧ s' = xs.foldl g s := by
  induction l generalizing s with
  | nil =>
    refine ⟨[], rfl, ?_⟩
    simpa [Result.forEach] using hl.symm
  | cons x rest ih =>
    cases x with
    | none => simp [Result.forEach, hn] at hl
    | some x =>
      simp only [Result.forEach, h] at hl
      obtain ⟨xs, hxs, hs⟩ := ih _ hl
      exact ⟨x :: xs, by simp [hxs], by simpa using hs⟩

/-- A loop whose body panics on nil panics on a slice with a nil element. -/
theorem Result.forEach_panic {σ α : Type} (f : σ → Option α → Result σ) (g : σ → α → σ)
    (h : ∀ s x, f s (some x) = Result.ok (g s x)) (hn : ∀ s, f s none = Result.panic)
    (l : List (Option α)) (s : σ) (hl : none ∈ l) :
    Result.forEach f s l = Result.panic := by
  induction l generalizing s with
  | nil => simp at hl
  | cons x rest ih =>
    cases x with
    | none => simp [Result.forEach, hn]
    | some x =>
      have hr : none ∈ rest := by simpa using hl
      simp only [Result.forEach, h]
      exact ih _ hr

theorem FetchDevices.build_eq (items : List Item) :
    FetchDevices.build (items.map some) =
      Result.ok (items.foldl fetchStep { heap := [], dev := [] }) :=
  Result.forEach_ok _ _ FetchDevices_step_total _ _

theorem fetchStep_bounded (s : Snapshot) (i : Item) (h : s.Bounded) :
    (fetchStep s i).Bounded := by
  unfold fetchStep
  by_cases ht : i.Type_ = "switch"
  · simp only [ht, if_true]
    intro k a hka
    by_cases hk : i.Name = k
    · subst hk
      rw [GoMap.get_set_self] at hka
      simp at hka
      subst hka
      simp
    · rw [GoMap.get_set_ne _ _ _ _ hk] at hka
      have hlt : a < s.heap.length := h k a hka
      simp only [List.length_append, List.length_singleton]
      exact Nat.lt_succ_of_lt hlt
  · simpa [ht] using h

theorem foldl_fetchStep_bounded (items : List Item) (s : Snapshot) (h : s.Bounded) :
    (items.foldl fetchStep s).Bounded := by
  induction items generalizing s with
  | nil => exact h
  | cons i rest ih => exact ih _ (fetchStep_bounded s i h)

theorem lookup_fetchStep (s : Snapshot) (i : Item) (k : String) (h : s.Bounded) :
    (fetchStep s i).lookup k =
      if i.Type_ = "switch" ∧ i.Name = k then some (switchDevice i) else s.lookup k := by
  unfold fetchStep
  by_cases ht : i.Type_ = "switch"
  · by_cases hk : i.Name = k
    · subst hk
      simp [ht, Snapshot.lookup, GoMap.get_set_self]
    · simp only [ht, hk, if_true, and_false, if_false, Snapshot.lookup]
      rw [GoMap.get_set_ne _ _ _ _ hk]
      cases hg : s.dev.get k with
      | none => rfl
      | some a =>
        have := h k a hg
        simp [List.getElem?_append_left this]
  · simp [ht]

/-- The snapshot read as a function of the key: the last switch item of that
name decides. -/
theorem lookup_foldl_fetchStep (items : List Item) (s : Snapshot) (k : String)
    (h : s.Bounded) :
    (items.foldl fetchStep s).lookup k =
      items.foldl
        (fun acc i => if i.Type_ = "switch" ∧ i.Name = k then some (switchDevice i) else acc)
        (s.lookup k) := by
  induction items generalizing s with
  | nil => rfl
  | cons i rest ih =>
    simp only [List.foldl_cons]
    rw [ih _ (fetchStep_bounded s i h), lookup_fetchStep s i k h]

theorem keys_foldl_fetchStep (items : List Item) (s : Snapshot) (k : String) :
    k ∈ (items.foldl fetchStep s).dev.keys ↔
      k ∈ s.dev.keys ∨ ∃ i ∈ items, i.Type_ = "switch" ∧ i.Name = k := by
  induction items generalizing s with
  | nil => simp
  | cons i rest ih =>
    simp only [List.foldl_cons]
    rw [ih]
    unfold fetchStep
    by_cases ht : i.Type_ = "switch"
    · simp only [ht, if_true, GoMap.mem_keys_set, List.mem_cons]
      constructor
      · rintro ((h | h) | ⟨j, hj, hs⟩)
        · exact Or.inr ⟨i, Or.inl rfl, ht, h.symm⟩
        · exact Or.inl h
        · exact Or.inr ⟨j, Or.inr hj, hs⟩
      · rintro (h | ⟨j, hj | hj, hs⟩)
        · exact Or.inl (Or.inr h)
        · subst hj
          exact Or.inl (Or.inl hs.2.symm)
        · exact Or.inr ⟨j, hj, hs⟩
    · simp only [ht, if_false, List.mem_cons]
      constructor
      · rintro (h | ⟨j, hj, hs⟩)
        · exact Or.inl h
        · exact Or.inr ⟨j, Or.inr hj, hs⟩
      · rintro (h | ⟨j, hj | hj, hs⟩)
        · exact Or.inl h
        · subst hj
          exact absurd hs.1 ht
        · exact Or.inr ⟨j, hj, hs⟩

theorem keys_nodup_foldl_fetchStep (items : List Item) (s : Snapshot)
    (h : s.dev.keys.Nodup) : (items.foldl fetchStep s).dev.keys.Nodup := by
  induction items generalizing s with
  | nil => exact h
  | cons i rest ih =>
    apply ih
    unfold fetchStep
    by_cases ht : i.Type_ = "switch"
    · simpa [ht] using GoMap.keys_set_nodup _ _ _ h
    · simpa [ht] using h

/-- Fold of "last hit wins": the result is the accumulator or comes from a hit. -/
theorem foldl_last_hit {α β : Type} (p : α → Prop) [DecidablePred p] (f : α → β)
    (xs : List α) (acc : Option β) (d : β)
    (h : xs.foldl (fun acc x => if p x then some (f x) else acc) acc = some d) :
    acc = some d ∨ ∃ x ∈ xs, p x ∧ f x = d := by
  induction xs generalizing acc with
  | nil => exact Or.inl h
  | cons x rest ih =>
    simp only [List.foldl_cons] at h
    rcases ih _ h with h' | ⟨y, hy, hp⟩
    · by_cases hx : p x
      · simp only [hx, if_true, Option.some.injEq] at h'
        exact Or.inr ⟨x, List.mem_cons_self _ _, hx, h'⟩
      · simp only [hx, if_false] at h'
        exact Or.inl h'
    · exact Or.inr ⟨y, List.mem_cons_of_mem _ hy, hp⟩

theorem foldl_no_hit {α β : Type} (p : α → Prop) [DecidablePred p] (f : α → β)
    (xs : List α) (acc : Option β) (h : ∀ x ∈ xs, ¬ p x) :
    xs.foldl (fun acc x => if p x then some (f x) else acc) acc = acc := by
  induction xs generalizing acc with
  | nil => rfl
  | cons x rest ih =>
    simp only [List.foldl_cons]
    rw [if_neg (h x (List.mem_cons_self _ _))]
    exact ih _ (fun y hy => h y (List.mem_cons_of_mem _ hy))

theorem App.FetchDevices_ok (app : App) (items : List Item)
    (hread : app.api.allItems app.api.reads = Result.ok (items.map some)) :
    app.FetchDevices =
      (Result.ok (snapshotOf items),
       { app with api := { app.api with reads := app.api.reads + 1 } }) := by
  simp [App.FetchDevices, Hub.AllItems, hread, FetchDevices.build_eq, snapshotOf]

theorem snapshotOf_bounded (items : List Item) : (snapshotOf items).Bounded :=
  foldl_fetchStep_bounded items _ (by intro k a h; simp [GoMap.get] at h)

theorem snapshotOf_lookup (items : List Item) (k : String) :
    (snapshotOf items).lookup k =
      items.foldl
        (fun acc i => if i.Type_ = "switch" ∧ i.Name = k then some (switchDevice i) else acc)
        none :=
  lookup_foldl_fetchStep items _ k (by intro k a h; simp [GoMap.get] at h)

theorem snapshotOf_lookup_origin (items : List Item) (k : String) (d : Device)
    (h : (snapshotOf items).lookup k = some d) :
    ∃ i ∈ items, i.Type_ = "switch" ∧ i.Name = k ∧ switchDevice i = d := by
  rw [snapshotOf_lookup] at h
  rcases foldl_last_hit (fun i : Item => i.Type_ = "switch" ∧ i.Name = k) switchDevice
      items none d h with h' | ⟨i, hi, hp, hd⟩
  · exact absurd h' (by simp)
  · exact ⟨i, hi, hp.1, hp.2, hd⟩

theorem snapshotOf_lookup_id (items : List Item) (k : String) (d : Device)
    (h : (snapshotOf items).lookup k = some d) : d.Id = k := by
  obtain ⟨i, _, _, hk, hd⟩ := snapshotOf_lookup_origin items k d h
  rw [← hd, ← hk]
  rfl

theorem Snapshot.mem_keys_iff_lookup (s : Snapshot) (hb : s.Bounded) (k : String) :
    k ∈ s.dev.keys ↔ ∃ d, s.lookup k = some d := by
  rw [GoMap.mem_keys_iff]
  unfold Snapshot.lookup
  constructor
  · rintro ⟨a, ha⟩
    have hlt : a < s.heap.length := hb k a ha
    exact ⟨s.heap[a], by simp [ha, List.getElem?_eq_getElem hlt]⟩
  · rintro ⟨d, hd⟩
    cases ha : s.dev.get k with
    | none => simp [ha] at hd
    | some a => exact ⟨a, rfl⟩

theorem snapshotOf_keys (items : List Item) (k : String) :
    k ∈ (snapshotOf items).dev.keys ↔ ∃ i ∈ items, i.Type_ = "switch" ∧ i.Name = k := by
  unfold snapshotOf
  rw [keys_foldl_fetchStep]
  simp [GoMap.keys]

theorem App.FetchDevices_inv (app : App) (snap : Snapshot)
    (h : app.FetchDevices.1 = Result.ok snap) :
    ∃ items : List Item,
      app.api.allItems app.api.reads = Result.ok (items.map some) ∧
      snap = snapshotOf items := by
  cases hr : app.api.allItems app.api.reads with
  | ok reply =>
    have hb : FetchDevices.build reply = Result.ok snap := by
      simpa [App.FetchDevices, Hub.AllItems, hr] using h
    obtain ⟨items, hitems, hs⟩ :=
      Result.forEach_ok_inv FetchDevices.step fetchStep FetchDevices_step_total
        (fun _ => rfl) reply _ snap hb
    exact ⟨items, by rw [hitems], hs⟩
  | fail e => simp [App.FetchDevices, Hub.AllItems, hr] at h
  | panic => simp [App.FetchDevices, Hub.AllItems, hr] at h

/-- A hub array with a null element makes `FetchDevices` panic, wherever the
null stands. -/
theorem FetchDevices_panics_on_null (app : App) (reply : List (Option Item))
    (hread : app.api.allItems app.api.reads = Result.ok reply) (hnull : none ∈ reply) :
    app.FetchDevices.1 = Result.panic := by
  have hb : FetchDevices.build reply = Result.panic :=
    Result.forEach_panic FetchDevices.step fetchStep FetchDevices_step_total (fun _ => rfl)
      reply _ hnull
  simp [App.FetchDevices, Hub.AllItems, hread, hb]

/-- C1 (amended): when the hub read returns an array without null elements
(the items `pre`, `it`, `post`) in which `it` is a switch item with boolean
raw value `v` and no later item has the same name, `FetchDevices` builds a
snapshot that maps `it.Name` to a device with exactly one capability, of type
`devices.capabilities.on_off`, whose state has instance `on`, value `v` and
no action result. -/
theorem FetchDevices_switch_bool (app : App) (pre post : List Item) (it : Item) (v : Bool)
    (hread : app.api.allItems app.api.reads = Result.ok ((pre ++ it :: post).map some))
    (htype : it.Type_ = "switch") (hraw : it.RawValue = Any.bool v)
    (hlater : ∀ j ∈ post, j.Name ≠ it.Name) :
    ∃ snap d, app.FetchDevices.1 = Result.ok snap ∧ snap.lookup it.Name = some d ∧
      d.Id = it.Name ∧
      d.Capabilities =
        [some
          { Type_ := "devices.capabilities.on_off"
            State := some { Instance := "on", Value := Any.bool v, ActionResult := none } }] := by
  refine ⟨snapshotOf (pre ++ it :: post), switchDevice it, ?_, ?_, rfl, ?_⟩
  · rw [App.FetchDevices_ok app _ hread]
  · rw [snapshotOf_lookup, List.foldl_append, List.foldl_cons]
    simp only [htype, true_and, if_true]
    exact foldl_no_hit (fun i : Item => i.Type_ = "switch" ∧ i.Name = it.Name) switchDevice
      post _ (fun j hj hp => hlater j hj hp.2)
  · simp [switchDevice, hraw]

/-- C2 (amended): after a successful hub read that returned an array without
null elements (the items `items`), `FetchDevices` succeeds, the keys of its
snapshot are exactly the names of the items of type `switch`, every key holds
a device whose id is the key, no key is repeated, and an item of any other
type leaves the snapshot under construction unchanged without failing. -/
theorem FetchDevices_keys (app : App) (items : List Item)
    (hread : app.api.allItems app.api.reads = Result.ok (items.map some)) :
    ∃ snap, app.FetchDevices.1 = Result.ok snap ∧
      (∀ k, k ∈ snap.dev.keys ↔ ∃ i ∈ items, i.Type_ = "switch" ∧ i.Name = k) ∧
      (∀ k, k ∈ snap.dev.keys ↔ ∃ d, snap.lookup k = some d) ∧
      (∀ k d, snap.lookup k = some d → d.Id = k) ∧
      snap.dev.keys.Nodup ∧
      (∀ k d, snap.lookup k = some d →
        ∃ i ∈ items, i.Type_ = "switch" ∧ d.Id = i.Name ∧ d.Description = i.HumanName) ∧
      (∀ (s : Snapshot) (i : Item), i.Type_ ≠ "switch" →
        FetchDevices.step s (some i) = Result.ok s) := by
  refine ⟨snapshotOf items, ?_, snapshotOf_keys items, ?_, snapshotOf_lookup_id items, ?_, ?_, ?_⟩
  · rw [App.FetchDevices_ok app _ hread]
  · exact Snapshot.mem_keys_iff_lookup _ (snapshotOf_bounded items)
  · exact keys_nodup_foldl_fetchStep items _ (by simp [GoMap.keys])
  · intro k d h
    obtain ⟨i, hi, ht, _, hd⟩ := snapshotOf_lookup_origin items k d h
    exact ⟨i, hi, ht, by rw [← hd]; rfl, by rw [← hd]; rfl⟩
  · intro s i h
    simp [FetchDevices.step, h]

/-- C10: `NewSwitch` keeps the item name as id and the human name as
description, has type `devices.types.switch` and a non-empty capability list,
and its display name is the id with each `_` turned into a space: same
length, no `_` left, a space wherever the id has `_` and the id's own
character everywhere else. -/
theorem NewSwitch_fields (name human room : String) :
    (NewSwitch name human room).Id = name ∧
    (NewSwitch name human room).Description = human ∧
    (NewSwitch name human room).Room = room ∧
    (NewSwitch name human room).Type_ = "devices.types.switch" ∧
    (NewSwitch name human room).Capabilities ≠ [] ∧
    (NewSwitch name human room).Name = ReplaceAll name '_' ' ' ∧
    (NewSwitch name human room).Name.length = name.length ∧
    '_' ∉ (NewSwitch name human room).Name.data ∧
    (∀ (n : Nat) (c : Char), name.data[n]? = some c → c ≠ '_' →
      (NewSwitch name human room).Name.data[n]? = some c) ∧
    (∀ n : Nat, name.data[n]? = some '_' →
      (NewSwitch name human room).Name.data[n]? = some ' ') := by
  refine ⟨rfl, rfl, rfl, rfl, List.cons_ne_nil _ _, rfl, ?_, ?_, ?_, ?_⟩
  · show (name.data.map (fun c => if c = '_' then ' ' else c)).length = name.data.length
    exact List.length_map _ _
  · simp only [NewSwitch, ReplaceAll, List.mem_map, not_exists, not_and]
    intro c _ h
    by_cases hc : c = '_'
    · rw [if_pos hc] at h
      exact absurd h (by decide)
    · rw [if_neg hc] at h
      exact hc h
  · intro n c h hc
    simp [NewSwitch, ReplaceAll, List.getElem?_map, h, hc]
  · intro n h
    simp [NewSwitch, ReplaceAll, List.getElem?_map, h]

theorem GetQuery_loop_filterMap (dev : GoMap Addr) (reqs : List DevReq) :
    GetQuery.loop dev (reqs.map some) = Result.ok (reqs.filterMap (fun i => dev.get i.Id)) := by
  have key : ∀ (acc : List Addr),
      reqs.foldl
        (fun devOut i =>
          match dev.get i.Id with
          | some d => devOut ++ [d]
          | none => devOut) acc
        = acc ++ reqs.filterMap (fun i => dev.get i.Id) := by
    induction reqs with
    | nil => intro acc; simp
    | cons i rest ih =>
      intro acc
      simp only [List.foldl_cons]
      rw [ih]
      cases h : dev.get i.Id <;> simp [List.filterMap_cons, h]
  unfold GetQuery.loop
  rw [Result.forEach_ok (GetQuery.step dev)
    (fun devOut i =>
      match dev.get i.Id with
      | some d => devOut ++ [d]
      | none => devOut)]
  · rw [key []]
    rfl
  · intro out i
    unfold GetQuery.step
    cases h : dev.get i.Id <;> simp [h]

theorem render_eq (heap : Heap) (addrs : List Addr) (h : ∀ a ∈ addrs, a < heap.length) :
    render heap addrs = Result.ok (addrs.filterMap (fun a => heap[a]?)) := by
  induction addrs with
  | nil => rfl
  | cons a rest ih =>
    have ha : a < heap.length := h a (List.mem_cons_self _ _)
    have hr := ih (fun b hb => h b (List.mem_cons_of_mem _ hb))
    simp [render, hr, List.getElem?_eq_getElem ha, List.filterMap_cons]

theorem Snapshot.lookup_eq_bind (s : Snapshot) (k : String) :
    s.lookup k = (s.dev.get k).bind (fun a => s.heap[a]?) := by
  unfold Snapshot.lookup
  cases s.dev.get k <;> rfl

theorem App.GetQuery_ok (app : App) (items : List Item) (reqs : List DevReq)
    (hread : app.api.allItems app.api.reads = Result.ok (items.map some)) :
    (app.GetQuery { Devices := reqs.map some }).1 =
      Result.ok (reqs.filterMap (fun i => (snapshotOf items).lookup i.Id)) := by
  have hb := snapshotOf_bounded items
  simp only [App.GetQuery, App.FetchDevices_ok app items hread, GetQuery_loop_filterMap]
  rw [render_eq]
  · rw [List.filterMap_filterMap]
    congr 2
    funext i
    rw [Snapshot.lookup_eq_bind]
  · intro a ha
    obtain ⟨i, _, hi⟩ := List.mem_filterMap.mp ha
    exact hb _ _ hi

/-- A query body with a null entry makes the handler panic, wherever the null
stands. -/
theorem GetQuery_panics_on_null (app : App) (snap : Snapshot) (req : StateReq)
    (hsnap : app.FetchDevices.1 = Result.ok snap) (hnull : none ∈ req.Devices) :
    (app.GetQuery req).1 = Result.panic := by
  have hl : GetQuery.loop snap.dev req.Devices = Result.panic := by
    unfold GetQuery.loop
    refine Result.forEach_panic (GetQuery.step snap.dev)
      (fun devOut i =>
        match snap.dev.get i.Id with
        | some d => devOut ++ [d]
        | none => devOut) ?_ (fun _ => rfl) _ _ hnull
    intro out i
    unfold GetQuery.step
    cases h : snap.dev.get i.Id <;> simp [h]
  unfold App.GetQuery
  cases hf : app.FetchDevices with
  | mk r app' =>
    have hr : r = Result.ok snap := by simpa [hf] using hsnap
    subst hr
    simp [hl]

/-- C3 (amended): for every snapshot `FetchDevices` returns and every
request whose device array has no null entry (the entries `reqs`), the query
handler answers without error with the devices the snapshot stores under the
requested ids, in request order; the ids of the returned devices are exactly
the requested ids that are keys of the snapshot, every returned device is the
one stored under its id, and a permutation of the request returns a
permutation of the same devices, hence the same id set. -/
theorem GetQuery_subset (app : App) (snap : Snapshot) (reqs : List DevReq)
    (hsnap : app.FetchDevices.1 = Result.ok snap) :
    ∃ devs, (app.GetQuery { Devices := reqs.map some }).1 = Result.ok devs ∧
      devs = reqs.filterMap (fun i => snap.lookup i.Id) ∧
      (∀ id, id ∈ devs.map Device.Id ↔
        id ∈ reqs.map DevReq.Id ∧ id ∈ snap.dev.keys) ∧
      (∀ d ∈ devs, snap.lookup d.Id = some d) ∧
      (∀ reqs' : List DevReq, reqs'.Perm reqs →
        ∃ devs', (app.GetQuery { Devices := reqs'.map some }).1 = Result.ok devs' ∧
          devs'.Perm devs ∧
          ∀ id, id ∈ devs'.map Device.Id ↔ id ∈ devs.map Device.Id) := by
  obtain ⟨items, hread, rfl⟩ := App.FetchDevices_inv app snap hsnap
  refine ⟨_, App.GetQuery_ok app items reqs hread, rfl, ?_, ?_, ?_⟩
  · intro id
    simp only [List.mem_map, List.mem_filterMap]
    constructor
    · rintro ⟨d, ⟨i, hi, hd⟩, rfl⟩
      have hid := snapshotOf_lookup_id items _ _ hd
      refine ⟨⟨i, hi, hid.symm⟩, ?_⟩
      rw [Snapshot.mem_keys_iff_lookup _ (snapshotOf_bounded items)]
      exact ⟨d, by rw [hid]; exact hd⟩
    · rintro ⟨⟨i, hi, rfl⟩, hk⟩
      rw [Snapshot.mem_keys_iff_lookup _ (snapshotOf_bounded items)] at hk
      obtain ⟨d, hd⟩ := hk
      exact ⟨d, ⟨i, hi, hd⟩, snapshotOf_lookup_id items _ _ hd⟩
  · intro d hd
    obtain ⟨i, _, hi⟩ := List.mem_filterMap.mp hd
    rw [snapshotOf_lookup_id items _ _ hi]
    exact hi
  · intro reqs' hp
    have hperm := List.Perm.filterMap (fun i : DevReq => (snapshotOf items).lookup i.Id) hp
    refine ⟨_, App.GetQuery_ok app items reqs' hread, hperm, ?_⟩
    intro id
    exact (hperm.map Device.Id).mem_iff

theorem DoneWith.live {id : String} {v : Bool} {o : Option Device} (h : DoneWith id v o) :
    Live id o := by
  obtain ⟨d, c, cs, h₁, h₂, h₃, _⟩ := h
  exact ⟨d, c, cs, h₁, h₂, h₃⟩

theorem Live.markOk {id : String} {o : Option Device} (v : Bool) (h : Live id o) :
    DoneWith id v (o.map (Alice.markOk v)) := by
  obtain ⟨d, c, cs, rfl, h₂, h₃⟩ := h
  refine ⟨Alice.markOk v d,
    { c with
      State := some
        { Instance := "on", Value := Any.bool v,
          ActionResult := some { Status := "DONE", ErrorCode := "", ErrorMessage := "" } } },
    cs, rfl, ?_, ?_, rfl⟩
  · simp [Alice.markOk, h₃, h₂]
  · simp [Alice.markOk, h₃, Capability.SetValOk]

theorem GetAction_step_ready (dev : GoMap Addr) (st : ActionRun) (i : DevReq)
    (hp : st.panicked = false) (hr : Ready dev st.heap) :
    GetAction.step dev st (some i) = actionStep dev st i := by
  unfold GetAction.step actionStep recog DevReq.onValue
  simp only [hp, Bool.false_eq_true, if_false]
  rcases hc : i.Capabilities with _ | ⟨c0, cs⟩
  · simp
  · rcases c0 with _ | c
    · simp [Capability.GetBool]
    · rcases hs : c.State with _ | s
      · simp [Capability.GetBool, hs]
      · by_cases hi : s.Instance = "on"
        · cases hv : s.Value with
          | bool b =>
            simp only [Capability.GetBool, hs, hi, hv, if_true]
            cases hg : dev.get i.Id with
            | none => rfl
            | some a =>
              obtain ⟨d, c', cs', hd, _, hcap⟩ := hr _ _ hg
              simp [hd, Device.onCap0, hcap, markOk]
          | null => simp [Capability.GetBool, hs, hi, hv]
          | number q => simp [Capability.GetBool, hs, hi, hv]
          | str t => simp [Capability.GetBool, hs, hi, hv]
          | composite => simp [Capability.GetBool, hs, hi, hv]
        · simp [Capability.GetBool, hs, hi]

theorem actionStep_ready (dev : GoMap Addr) (st : ActionRun) (i : DevReq)
    (hr : Ready dev st.heap) : Ready dev (actionStep dev st i).heap := by
  unfold actionStep
  cases hrec : recog dev i with
  | none => exact hr
  | some p =>
    obtain ⟨a, v⟩ := p
    intro k b hk
    have hb := hr k b hk
    simp only
    cases hd : st.heap[a]? with
    | none => exact hb
    | some d =>
      simp only
      by_cases hab : a = b
      · subst hab
        have hl : Live k (some d) := hd ▸ hb
        have := (hl.markOk v).live
        obtain ⟨d', _, _, hd', _⟩ := hb
        have hlt : a < st.heap.length := (List.getElem?_eq_some.mp hd').1
        simpa [List.getElem?_set_self, hlt] using this
      · rw [List.getElem?_set_ne hab]
        exact hb

theorem actionStep_panicked (dev : GoMap Addr) (st : ActionRun) (i : DevReq)
    (hp : st.panicked = false) : (actionStep dev st i).panicked = false := by
  unfold actionStep
  cases recog dev i with
  | none => exact hp
  | some p => exact hp

theorem GetAction_loop_foldl (dev : GoMap Addr) (reqs : List DevReq) (st : ActionRun)
    (hp : st.panicked = false) (hr : Ready dev st.heap) :
    GetAction.loop dev st (reqs.map some) = reqs.foldl (actionStep dev) st := by
  unfold GetAction.loop
  induction reqs generalizing st with
  | nil => rfl
  | cons i rest ih =>
    simp only [List.map_cons, List.foldl_cons]
    rw [GetAction_step_ready dev st i hp hr]
    exact ih _ (actionStep_panicked dev st i hp) (actionStep_ready dev st i hr)

/-- After a panic the rest of the batch is not processed. -/
theorem GetAction_loop_panicked (dev : GoMap Addr) (rest : List (Option DevReq))
    (st : ActionRun) (hp : st.panicked = true) : GetAction.loop dev st rest = st := by
  unfold GetAction.loop
  induction rest with
  | nil => rfl
  | cons i rest ih =>
    simp only [List.foldl_cons]
    have hstep : GetAction.step dev st i = st := by
      unfold GetAction.step
      simp [hp]
    rw [hstep]
    exact ih

/-- The loop on a batch whose first nil entry comes after the entries `pre`:
the entries `pre` are processed and the handler panics. -/
theorem GetAction_loop_nil (dev : GoMap Addr) (pre : List DevReq)
    (tail : List (Option DevReq)) (st : ActionRun)
    (hp : st.panicked = false) (hr : Ready dev st.heap) :
    GetAction.loop dev st (pre.map some ++ none :: tail) =
      { pre.foldl (actionStep dev) st with panicked := true } := by
  have hpre := GetAction_loop_foldl dev pre st hp hr
  have hfin : (pre.foldl (actionStep dev) st).panicked = false := by
    have key : ∀ (l : List DevReq) (t : ActionRun), t.panicked = false →
        (l.foldl (actionStep dev) t).panicked = false := by
      intro l
      induction l with
      | nil => intro t ht; exact ht
      | cons i l ih => intro t ht; exact ih _ (actionStep_panicked dev t i ht)
    exact key pre st hp
  unfold GetAction.loop at hpre ⊢
  rw [List.foldl_append, hpre, List.foldl_cons]
  have hstep : GetAction.step dev (pre.foldl (actionStep dev) st) none =
      { pre.foldl (actionStep dev) st with panicked := true } := by
    unfold GetAction.step
    simp [hfin]
  rw [hstep]
  exact GetAction_loop_panicked dev tail _ rfl

/-- Content of one address after a step. -/
theorem actionStep_heap (dev : GoMap Addr) (st : ActionRun) (i : DevReq) (b : Addr) :
    (actionStep dev st i).heap[b]? =
      match recog dev i with
      | some (a, v) => if a = b then st.heap[b]?.map (markOk v) else st.heap[b]?
      | none => st.heap[b]? := by
  unfold actionStep
  cases hrec : recog dev i with
  | none => rfl
  | some p =>
    obtain ⟨a, v⟩ := p
    simp only
    by_cases hab : a = b
    · subst hab
      cases hd : st.heap[a]? with
      | none => simp [hd]
      | some d =>
        have hlt : a < st.heap.length := (List.getElem?_eq_some.mp hd).1
        simp [List.getElem?_set_self, hlt]
    · cases hd : st.heap[a]? with
      | none => simp [hab]
      | some d => simp [hab, List.getElem?_set_ne hab]

/-- What the loop leaves behind: flag, response pointers, hub log and the
content of every address. -/
theorem foldl_actionStep (dev : GoMap Addr) (reqs : List DevReq) (st : ActionRun) :
    (reqs.foldl (actionStep dev) st).panicked = st.panicked ∧
    (reqs.foldl (actionStep dev) st).devOut =
      st.devOut ++ reqs.filterMap (fun i => (recog dev i).map Prod.fst) ∧
    (reqs.foldl (actionStep dev) st).api.writes =
      st.api.writes ++ reqs.filterMap (fun i =>
        (recog dev i).map
          (fun p => HubWrite.mk i.Id (OnOff p.2) (st.api.itemCommand i.Id (OnOff p.2)))) ∧
    (reqs.foldl (actionStep dev) st).api.itemCommand = st.api.itemCommand ∧
    (reqs.foldl (actionStep dev) st).api.allItems = st.api.allItems ∧
    (reqs.foldl (actionStep dev) st).api.reads = st.api.reads ∧
    ∀ b : Addr, (reqs.foldl (actionStep dev) st).heap[b]? =
      reqs.foldl
        (fun acc i =>
          match recog dev i with
          | some (a, v) => if a = b then acc.map (markOk v) else acc
          | none => acc)
        st.heap[b]? := by
  induction reqs generalizing st with
  | nil => simp
  | cons i rest ih =>
    simp only [List.foldl_cons]
    obtain ⟨h₁, h₂, h₃, h₄, h₅, h₆, h₇⟩ := ih (actionStep dev st i)
    have hcmd : (actionStep dev st i).api.itemCommand = st.api.itemCommand := by
      unfold actionStep
      cases recog dev i <;> rfl
    refine ⟨?_, ?_, ?_, ?_, ?_, ?_, ?_⟩
    · rw [h₁]
      unfold actionStep
      cases recog dev i <;> rfl
    · rw [h₂]
      unfold actionStep
      cases hrec : recog dev i <;> simp [List.filterMap_cons, hrec]
    · rw [h₃, hcmd]
      unfold actionStep
      cases hrec : recog dev i <;> simp [List.filterMap_cons, hrec, Hub.ItemCommand]
    · rw [h₄, hcmd]
    · rw [h₅]
      unfold actionStep
      cases recog dev i <;> rfl
    · rw [h₆]
      unfold actionStep
      cases recog dev i <;> rfl
    · intro b
      rw [h₇ b, actionStep_heap]

theorem DevReq.onValue_eq_some_iff (i : DevReq) (v : Bool) :
    i.onValue = some v ↔ i.Carries v := by
  unfold DevReq.onValue DevReq.Carries
  constructor
  · intro h
    rcases hc : i.Capabilities with _ | ⟨c0, cs⟩
    · simp [hc] at h
    · rcases c0 with _ | c
      · simp [hc] at h
      · rcases hs : c.State with _ | s
        · simp [hc, hs] at h
        · by_cases hi : s.Instance = "on"
          · cases hv : s.Value with
            | bool b =>
              simp [hc, hs, hi, hv] at h
              exact ⟨c, cs, s, rfl, hs, hi, by rw [hv, h]⟩
            | null => simp [hc, hs, hi, hv] at h
            | number q => simp [hc, hs, hi, hv] at h
            | str t => simp [hc, hs, hi, hv] at h
            | composite => simp [hc, hs, hi, hv] at h
          · simp [hc, hs, hi] at h
  · rintro ⟨c, cs, s, hc, hs, hi, hv⟩
    simp [hc, hs, hi, hv]

theorem snapshotOf_ready (items : List Item) :
    Ready (snapshotOf items).dev (snapshotOf items).heap := by
  intro k a hk
  have hlt : a < (snapshotOf items).heap.length := snapshotOf_bounded items k a hk
  have hl : (snapshotOf items).lookup k = some (snapshotOf items).heap[a] := by
    simp [Snapshot.lookup, hk, List.getElem?_eq_getElem hlt]
  obtain ⟨i, _, _, hn, hd⟩ := snapshotOf_lookup_origin items k _ hl
  rw [List.getElem?_eq_getElem hlt, ← hd]
  exact ⟨switchDevice i, _, [], rfl, hn, rfl⟩

theorem actionEnd_ready (app : App) (items : List Item) (reqs : List DevReq) :
    Ready (snapshotOf items).dev (actionEnd app items reqs).heap := by
  have key : ∀ (reqs : List DevReq) (st : ActionRun), Ready (snapshotOf items).dev st.heap →
      Ready (snapshotOf items).dev (reqs.foldl (actionStep (snapshotOf items).dev) st).heap := by
    intro reqs
    induction reqs with
    | nil => intro st h; exact h
    | cons i rest ih => intro st h; exact ih _ (actionStep_ready _ st i h)
  exact key _ _ (snapshotOf_ready items)

theorem App.GetAction_ok (app : App) (items : List Item) (reqs : List DevReq)
    (hread : app.api.allItems app.api.reads = Result.ok (items.map some)) :
    (app.GetAction { Devices := reqs.map some }).1 =
      Result.ok (reqs.filterMap (fun i =>
        (recog (snapshotOf items).dev i).bind
          (fun p => (actionEnd app items reqs).heap[p.1]?))) ∧
    (app.GetAction { Devices := reqs.map some }).2.api.writes =
      app.api.writes ++ reqs.filterMap (fun i =>
        (recog (snapshotOf items).dev i).map
          (fun p => HubWrite.mk i.Id (OnOff p.2) (app.api.itemCommand i.Id (OnOff p.2)))) := by
  have hloop : GetAction.loop (snapshotOf items).dev
      { heap := (snapshotOf items).heap, devOut := [],
        api := { app.api with reads := app.api.reads + 1 }, panicked := false }
      (reqs.map some) = actionEnd app items reqs :=
    GetAction_loop_foldl _ _ _ rfl (snapshotOf_ready items)
  obtain ⟨h₁, h₂, h₃, -, -, -, -⟩ := foldl_actionStep (snapshotOf items).dev reqs
    { heap := (snapshotOf items).heap, devOut := [],
      api := { app.api with reads := app.api.reads + 1 }, panicked := false }
  have h₁ : (actionEnd app items reqs).panicked = false := h₁
  have h₂ : (actionEnd app items reqs).devOut = _ := h₂
  have h₃ : (actionEnd app items reqs).api.writes = _ := h₃
  have hready := actionEnd_ready app items reqs
  simp only [App.GetAction, App.FetchDevices_ok app items hread, hloop, h₁,
    Bool.false_eq_true, if_false, h₃, and_true]
  rw [render_eq, h₂, List.nil_append, List.filterMap_filterMap]
  · congr 2
    funext i
    cases recog (snapshotOf items).dev i <;> rfl
  · intro a ha
    rw [h₂] at ha
    simp only [List.nil_append, List.mem_filterMap] at ha
    obtain ⟨i, _, hi⟩ := ha
    cases hrec : recog (snapshotOf items).dev i with
    | none => simp [hrec] at hi
    | some p =>
      simp only [hrec, Option.map_some', Option.some.injEq] at hi
      have hget : (snapshotOf items).dev.get i.Id = some a := by
        unfold recog at hrec
        cases hv : i.onValue <;> cases hg : (snapshotOf items).dev.get i.Id <;>
          simp [hv, hg] at hrec
        rw [← hi, ← hrec]
      obtain ⟨d, _, _, hd, _⟩ := hready _ _ hget
      exact (List.getElem?_eq_some.mp hd).1

/-- The handler on a batch whose first null entry comes after the entries
`pre`: it panics, and the hub has received the writes for `pre`. -/
theorem App.GetAction_nil (app : App) (items : List Item) (pre : List DevReq)
    (tail : List (Option DevReq))
    (hread : app.api.allItems app.api.reads = Result.ok (items.map some)) :
    (app.GetAction { Devices := pre.map some ++ none :: tail }).1 = Result.panic ∧
    (app.GetAction { Devices := pre.map some ++ none :: tail }).2.api.writes =
      app.api.writes ++ pre.filterMap (fun i =>
        (recog (snapshotOf items).dev i).map
          (fun p => HubWrite.mk i.Id (OnOff p.2) (app.api.itemCommand i.Id (OnOff p.2)))) := by
  have hloop := GetAction_loop_nil (snapshotOf items).dev pre tail
    { heap := (snapshotOf items).heap, devOut := [],
      api := { app.api with reads := app.api.reads + 1 }, panicked := false }
    rfl (snapshotOf_ready items)
  obtain ⟨-, -, h₃, -, -, -, -⟩ := foldl_actionStep (snapshotOf items).dev pre
    { heap := (snapshotOf items).heap, devOut := [],
      api := { app.api with reads := app.api.reads + 1 }, panicked := false }
  simp only [App.GetAction, App.FetchDevices_ok app items hread, hloop, if_true, h₃,
    and_self]

/-- A slice with a nil element splits at its first nil. -/
theorem split_at_first_none {α : Type} (l : List (Option α)) (h : none ∈ l) :
    ∃ (pre : List α) (tail : List (Option α)), l = pre.map some ++ none :: tail := by
  induction l with
  | nil => simp at h
  | cons x rest ih =>
    cases x with
    | none => exact ⟨[], rest, rfl⟩
    | some x =>
      have hr : none ∈ rest := by simpa using h
      obtain ⟨pre, tail, hpt⟩ := ih hr
      exact ⟨x :: pre, tail, by simp [hpt]⟩

/-- An action batch with a null entry makes the handler panic, wherever the
null stands. -/
theorem GetAction_panics_on_null (app : App) (snap : Snapshot) (req : ActionReq)
    (hsnap : app.FetchDevices.1 = Result.ok snap) (hnull : none ∈ req.Devices) :
    (app.GetAction req).1 = Result.panic := by
  obtain ⟨items, hread, rfl⟩ := App.FetchDevices_inv app snap hsnap
  obtain ⟨pre, tail, hpt⟩ := split_at_first_none req.Devices hnull
  have hreq : req = { Devices := pre.map some ++ none :: tail } := by
    cases req
    simp only [ActionReq.mk.injEq]
    exact hpt
  rw [hreq]
  exact (App.GetAction_nil app items pre tail hread).1

theorem foldl_inv {α β : Type} (P : β → Prop) (f : β → α → β) (xs : List α) (b : β)
    (hb : P b) (hstep : ∀ b x, x ∈ xs → P b → P (f b x)) : P (xs.foldl f b) := by
  induction xs generalizing b with
  | nil => exact hb
  | cons x rest ih =>
    exact ih (f b x) (hstep b x (List.mem_cons_self _ _) hb)
      (fun b y hy => hstep b y (List.mem_cons_of_mem _ hy))

theorem map_filterMap_eq_map_filter {α β γ : Type} (F : α → Option β) (g : β → γ)
    (p : α → Bool) (h : α → γ) (l : List α)
    (H : ∀ x ∈ l, (F x).map g = if p x then some (h x) else none) :
    (l.filterMap F).map g = (l.filter p).map h := by
  induction l with
  | nil => rfl
  | cons x rest ih =>
    have hx := H x (List.mem_cons_self _ _)
    have hr := ih (fun y hy => H y (List.mem_cons_of_mem _ hy))
    cases hp : p x <;> cases hF : F x <;> simp [hp, hF] at hx
    · simp [List.filterMap_cons, hF, List.filter_cons, hp, hr]
    · simp [List.filterMap_cons, hF, List.filter_cons, hp, hr, hx]

theorem recog_eq_some_iff (dev : GoMap Addr) (i : DevReq) (a : Addr) (v : Bool) :
    recog dev i = some (a, v) ↔ i.onValue = some v ∧ dev.get i.Id = some a := by
  unfold recog
  cases i.onValue <;> cases dev.get i.Id <;> simp
  tauto

theorem recog_isSome_iff (dev : GoMap Addr) (i : DevReq) :
    (recog dev i).isSome = DevReq.recognized dev.keys i := by
  unfold recog DevReq.recognized
  cases hv : i.onValue with
  | none => simp
  | some v =>
    cases hg : dev.get i.Id with
    | none =>
      have : i.Id ∉ dev.keys := (GoMap.get_eq_none_iff dev i.Id).mp hg
      simp [this]
    | some a =>
      have : i.Id ∈ dev.keys := (GoMap.mem_keys_iff dev i.Id).mpr ⟨a, hg⟩
      simp [this]

/-- Two keys of a ready map that share an address are equal. -/
theorem Ready.inj {dev : GoMap Addr} {heap : Heap} (h : Ready dev heap) {k k' : String}
    {a : Addr} (hk : dev.get k = some a) (hk' : dev.get k' = some a) : k = k' := by
  obtain ⟨d, _, _, hd, hid, _⟩ := h k a hk
  obtain ⟨d', _, _, hd', hid', _⟩ := h k' a hk'
  rw [hd] at hd'
  cases hd'
  rw [← hid, ← hid']

/-- C4 (amended): in a batch without null entries (the entries `pre`, `e`,
`post`), for an entry `e` whose first capability carries the boolean `on`
value `v`, whose id is a key of the snapshot, and after which no entry for
the same id carries a different boolean `on` value, the handler answers and
the response contains a device with that id whose first capability reports
instance `on`, value `v` and action result `DONE`. -/
theorem GetAction_done (app : App) (snap : Snapshot) (pre post : List DevReq) (e : DevReq)
    (v : Bool)
    (hsnap : app.FetchDevices.1 = Result.ok snap)
    (hkey : e.Id ∈ snap.dev.keys)
    (hval : e.Carries v)
    (hlast : ∀ j ∈ post, j.Id = e.Id → ∀ w, j.Carries w → w = v) :
    ∃ resp d,
      (app.GetAction { Devices := (pre ++ e :: post).map some }).1 = Result.ok resp ∧
      d ∈ resp ∧ d.Id = e.Id ∧
      ∃ c cs, d.Capabilities = some c :: cs ∧
        c.State = some
          { Instance := "on", Value := Any.bool v,
            ActionResult := some { Status := "DONE", ErrorCode := "", ErrorMessage := "" } } := by
  obtain ⟨items, hread, rfl⟩ := App.FetchDevices_inv app snap hsnap
  obtain ⟨a, ha⟩ := (GoMap.mem_keys_iff _ _).mp hkey
  have hov : e.onValue = some v := (DevReq.onValue_eq_some_iff e v).mpr hval
  have hrec : recog (snapshotOf items).dev e = some (a, v) :=
    (recog_eq_some_iff _ _ _ _).mpr ⟨hov, ha⟩
  have hready := snapshotOf_ready items
  obtain ⟨hresp, -⟩ := App.GetAction_ok app items (pre ++ e :: post) hread
  obtain ⟨-, -, -, -, -, -, hheap⟩ :=
    foldl_actionStep (snapshotOf items).dev (pre ++ e :: post)
      { heap := (snapshotOf items).heap, devOut := [],
        api := { app.api with reads := app.api.reads + 1 }, panicked := false }
  have hfin : DoneWith e.Id v (actionEnd app items (pre ++ e :: post)).heap[a]? := by
    have h := hheap a
    change (actionEnd app items (pre ++ e :: post)).heap[a]? = _ at h
    rw [h, List.foldl_append, List.foldl_cons]
    apply foldl_inv (DoneWith e.Id v)
    · simp only [hrec, if_true]
      apply Live.markOk
      apply foldl_inv (Live e.Id)
      · exact hready _ _ ha
      · intro acc j _ hacc
        cases hj : recog (snapshotOf items).dev j with
        | none => exact hacc
        | some p =>
          obtain ⟨a', w⟩ := p
          by_cases haa : a' = a
          · simpa [haa] using (hacc.markOk w).live
          · simpa [haa] using hacc
    · intro acc j hjm hacc
      cases hj : recog (snapshotOf items).dev j with
      | none => exact hacc
      | some p =>
        obtain ⟨a', w⟩ := p
        by_cases haa : a' = a
        · subst haa
          obtain ⟨hjv, hja⟩ := (recog_eq_some_iff _ _ _ _).mp hj
          have hid : j.Id = e.Id := hready.inj hja ha
          have hw : w = v := hlast j hjm hid w ((DevReq.onValue_eq_some_iff j w).mp hjv)
          subst hw
          simpa using hacc.live.markOk w
        · simpa [haa] using hacc
  obtain ⟨d, c, cs, hd, hid, hcap, hst⟩ := hfin
  refine ⟨_, d, hresp, ?_, hid, c, cs, hcap, hst⟩
  rw [List.mem_filterMap]
  exact ⟨e, by simp, by simp [hrec, hd]⟩

/-- C9 (amended): on a batch without null entries (the entries `reqs`) the
response of the action handler lists, in batch order, exactly the entries
that have a first capability with a state of instance `on` and a boolean
value and whose id is a key of the snapshot; the hub writes issued by the
handler are for the same entries in the same order, so the response is as
long as the number of writes issued; all other entries are skipped and the
handler does not fail. -/
theorem GetAction_recognized (app : App) (snap : Snapshot) (reqs : List DevReq)
    (hsnap : app.FetchDevices.1 = Result.ok snap) :
    ∃ resp, (app.GetAction { Devices := reqs.map some }).1 = Result.ok resp ∧
      resp.map Device.Id =
        (reqs.filter (DevReq.recognized snap.dev.keys)).map DevReq.Id ∧
      ((app.GetAction { Devices := reqs.map some }).2.api.writes.drop app.api.writes.length).map HubWrite.item =
        (reqs.filter (DevReq.recognized snap.dev.keys)).map DevReq.Id ∧
      (app.GetAction { Devices := reqs.map some }).2.api.writes.take app.api.writes.length = app.api.writes ∧
      resp.length + app.api.writes.length = (app.GetAction { Devices := reqs.map some }).2.api.writes.length ∧
      ∀ i : DevReq, DevReq.recognized snap.dev.keys i = true ↔
        (∃ c cs s v, i.Capabilities = some c :: cs ∧ c.State = some s ∧
          s.Instance = "on" ∧ s.Value = Any.bool v) ∧ i.Id ∈ snap.dev.keys := by
  obtain ⟨items, hread, rfl⟩ := App.FetchDevices_inv app snap hsnap
  obtain ⟨hresp, hwrites⟩ := App.GetAction_ok app items reqs hread
  have hready := actionEnd_ready app items reqs
  have hids : (reqs.filterMap (fun i =>
        (recog (snapshotOf items).dev i).bind
          (fun p => (actionEnd app items reqs).heap[p.1]?))).map Device.Id =
      (reqs.filter (DevReq.recognized (snapshotOf items).dev.keys)).map DevReq.Id := by
    apply map_filterMap_eq_map_filter
    intro i _
    rw [← recog_isSome_iff]
    cases hrec : recog (snapshotOf items).dev i with
    | none => simp
    | some p =>
      obtain ⟨a, v⟩ := p
      obtain ⟨-, hga⟩ := (recog_eq_some_iff _ _ _ _).mp hrec
      obtain ⟨d, _, _, hd, hid, _⟩ := hready _ _ hga
      simp [hd, hid]
  have hitems : (reqs.filterMap (fun i =>
        (recog (snapshotOf items).dev i).map
          (fun p => HubWrite.mk i.Id (OnOff p.2)
            (app.api.itemCommand i.Id (OnOff p.2))))).map HubWrite.item =
      (reqs.filter (DevReq.recognized (snapshotOf items).dev.keys)).map DevReq.Id := by
    apply map_filterMap_eq_map_filter
    intro i _
    rw [← recog_isSome_iff]
    cases hrec : recog (snapshotOf items).dev i <;> simp
  refine ⟨_, hresp, hids, ?_, ?_, ?_, ?_⟩
  · rw [hwrites, List.drop_left]
    exact hitems
  · rw [hwrites, List.take_left]
  · rw [hwrites, List.length_append, Nat.add_comm]
    congr 1
    rw [← List.length_map _ Device.Id, hids, ← hitems, List.length_map]
  · intro i
    unfold DevReq.recognized
    rw [Bool.and_eq_true, decide_eq_true_iff, Option.isSome_iff_exists]
    constructor
    · rintro ⟨⟨v, hv⟩, hk⟩
      obtain ⟨c, cs, s, h₁, h₂, h₃, h₄⟩ := (DevReq.onValue_eq_some_iff i v).mp hv
      exact ⟨⟨c, cs, s, v, h₁, h₂, h₃, h₄⟩, hk⟩
    · rintro ⟨⟨c, cs, s, v, h₁, h₂, h₃, h₄⟩, hk⟩
      exact ⟨⟨v, (DevReq.onValue_eq_some_iff i v).mpr ⟨c, cs, s, h₁, h₂, h₃, h₄⟩⟩, hk⟩

/-- C8 (amended): `OnOff` is defined on both booleans, sends `true` to `On`
and `false` to `Off`, and is injective; on a batch that is the entries `pre`
followed by nothing or by a null entry and anything after it, the hub writes
issued by the action handler are, in batch order, one write per recognized
entry of `pre`, to the entry's id with payload `OnOff v` for the value `v`
the entry carries. -/
theorem OnOff_payload (app : App) (snap : Snapshot) (pre : List DevReq)
    (rest : List (Option DevReq))
    (hsnap : app.FetchDevices.1 = Result.ok snap)
    (hrest : rest = [] ∨ ∃ tail, rest = none :: tail) :
    OnOff true = "On" ∧ OnOff false = "Off" ∧
    (∀ a, OnOff a = "On" ∨ OnOff a = "Off") ∧
    (∀ a b, OnOff a = OnOff b → a = b) ∧
    (app.GetAction { Devices := pre.map some ++ rest }).2.api.writes =
      app.api.writes ++ pre.filterMap (fun i =>
        if i.Id ∈ snap.dev.keys then
          i.onValue.map (fun v =>
            HubWrite.mk i.Id (OnOff v) (app.api.itemCommand i.Id (OnOff v)))
        else none) ∧
    (∀ (i : DevReq) (v : Bool), i.onValue = some v ↔
      ∃ c cs s, i.Capabilities = some c :: cs ∧ c.State = some s ∧
        s.Instance = "on" ∧ s.Value = Any.bool v) := by
  obtain ⟨items, hread, rfl⟩ := App.FetchDevices_inv app snap hsnap
  have hwrites : (app.GetAction { Devices := pre.map some ++ rest }).2.api.writes =
      app.api.writes ++ pre.filterMap (fun i =>
        (recog (snapshotOf items).dev i).map
          (fun p => HubWrite.mk i.Id (OnOff p.2) (app.api.itemCommand i.Id (OnOff p.2)))) := by
    rcases hrest with rfl | ⟨tail, rfl⟩
    · rw [List.append_nil]
      exact (App.GetAction_ok app items pre hread).2
    · exact (App.GetAction_nil app items pre tail hread).2
  refine ⟨rfl, rfl, ?_, ?_, ?_, DevReq.onValue_eq_some_iff⟩
  · intro a
    cases a
    · exact Or.inr rfl
    · exact Or.inl rfl
  · intro a b h
    cases a <;> cases b <;> first | rfl | exact absurd h (by decide)
  · rw [hwrites]
    congr 2
    funext i
    unfold recog
    cases hv : i.onValue with
    | none => simp
    | some v =>
      cases hg : (snapshotOf items).dev.get i.Id with
      | none =>
        have : i.Id ∉ (snapshotOf items).dev.keys := (GoMap.get_eq_none_iff _ _).mp hg
        simp [this]
      | some a =>
        have : i.Id ∈ (snapshotOf items).dev.keys := (GoMap.mem_keys_iff _ _).mpr ⟨a, hg⟩
        simp [this]

/-- C7: when the hub read fails with error `e`, `GetItem` called on a stale
cache returns that error and no item, `FetchDevices` returns that error and
no map, and in both cases the cached items and the timestamp are what they
were before the call. -/
theorem read_failure_propagates (app : App) (now : Time) (name : String) (e : String)
    (hfail : app.api.allItems app.api.reads = Result.fail e) :
    (app.lastChange + Minute < now →
      (app.GetItem now name).1 = Result.fail e ∧
      (app.GetItem now name).2.items = app.items ∧
      (app.GetItem now name).2.lastChange = app.lastChange) ∧
    app.FetchDevices.1 = Result.fail e ∧
    app.FetchDevices.2.items = app.items ∧
    app.FetchDevices.2.lastChange = app.lastChange := by
  refine ⟨?_, ?_, ?_, ?_⟩
  · intro hstale
    simp [App.GetItem, hstale, Hub.AllItems, hfail]
  · simp [App.FetchDevices, Hub.AllItems, hfail]
  · simp [App.FetchDevices, Hub.AllItems, hfail]
  · simp [App.FetchDevices, Hub.AllItems, hfail]

/-- C1 (counterexample): the hub array `[null, sw_kitchen]` decodes without
error and holds the switch item `sw_kitchen` with raw value `true`, not
followed by anything; `FetchDevices` panics on the null element, so no
snapshot maps `sw_kitchen` to a device. -/
theorem FetchDevices_null_item_counterexample :
    (NewApp (replyHub [none, some (kitchen (Any.bool true))] none)).api.allItems 0 =
      Result.ok [none, some (kitchen (Any.bool true))] ∧
    (kitchen (Any.bool true)).Type_ = "switch" ∧
    (kitchen (Any.bool true)).RawValue = Any.bool true ∧
    (NewApp (replyHub [none, some (kitchen (Any.bool true))] none)).FetchDevices.1 =
      Result.panic ∧
    ¬ ∃ snap d,
      (NewApp (replyHub [none, some (kitchen (Any.bool true))] none)).FetchDevices.1 =
        Result.ok snap ∧
      snap.lookup "sw_kitchen" = some d := by
  refine ⟨rfl, rfl, rfl, by decide, ?_⟩
  rintro ⟨snap, d, h, -⟩
  have hp : (NewApp (replyHub [none, some (kitchen (Any.bool true))] none)).FetchDevices.1 =
      Result.panic := by decide
  rw [hp] at h
  exact Result.noConfusion h

/-- C2 (counterexample): the hub array `[t_hall, null]`, a temperature item
followed by null, is returned by a successful read, and `FetchDevices` fails
on it with a panic instead of returning a snapshot. -/
theorem FetchDevices_null_fails_counterexample :
    (NewApp (replyHub [some (mkItem "t_hall" "temperature" "Hall" (Any.number 21)), none]
        none)).api.allItems 0 =
      Result.ok [some (mkItem "t_hall" "temperature" "Hall" (Any.number 21)), none] ∧
    (NewApp (replyHub [some (mkItem "t_hall" "temperature" "Hall" (Any.number 21)), none]
        none)).FetchDevices.1 = Result.panic ∧
    ¬ ∃ snap,
      (NewApp (replyHub [some (mkItem "t_hall" "temperature" "Hall" (Any.number 21)), none]
        none)).FetchDevices.1 = Result.ok snap := by
  refine ⟨rfl, by decide, ?_⟩
  rintro ⟨snap, h⟩
  have hp : (NewApp (replyHub
      [some (mkItem "t_hall" "temperature" "Hall" (Any.number 21)), none]
      none)).FetchDevices.1 = Result.panic := by decide
  rw [hp] at h
  exact Result.noConfusion h

/-- C3 (counterexample): with `sw_kitchen` a key of the snapshot, the query
body `[null, sw_kitchen]` makes the handler panic: no device is returned for
the requested id `sw_kitchen`. -/
theorem GetQuery_null_entry_counterexample :
    demoApp.FetchDevices.1 = Result.ok (snapshotOf demoItems) ∧
    "sw_kitchen" ∈ (snapshotOf demoItems).dev.keys ∧
    (demoApp.GetQuery { Devices := [none, some (turn "sw_kitchen" true)] }).1 =
      Result.panic ∧
    ¬ ∃ devs,
      (demoApp.GetQuery { Devices := [none, some (turn "sw_kitchen" true)] }).1 =
        Result.ok devs := by
  refine ⟨by decide, by decide, by decide, ?_⟩
  rintro ⟨devs, h⟩
  have hp : (demoApp.GetQuery { Devices := [none, some (turn "sw_kitchen" true)] }).1 =
      Result.panic := by decide
  rw [hp] at h
  exact Result.noConfusion h

/-- C4 (counterexample): with `sw_kitchen` in the snapshot, the batch that
turns it on and then off yields a response listing the device twice with
value `false`, so no device of the response reports the value `true` of the
first entry; and the batch that turns it on and then holds a null entry
issues the write and panics, so there is no response at all. -/
theorem GetAction_repeated_id_counterexample :
    (NewApp (fixedHub [kitchen (Any.bool false)] none)).FetchDevices.1 =
      Result.ok { heap := [kitchenDevice (some ⟨"on", Any.bool false, none⟩)],
                  dev := [("sw_kitchen", 0)] } ∧
    (turn "sw_kitchen" true).Carries true ∧
    ((NewApp (fixedHub [kitchen (Any.bool false)] none)).GetAction
        { Devices := [some (turn "sw_kitchen" true), some (turn "sw_kitchen" false)] }).1 =
      Result.ok [kitchenDevice (some (doneState false)), kitchenDevice (some (doneState false))] ∧
    (¬ ∃ d ∈ [kitchenDevice (some (doneState false)), kitchenDevice (some (doneState false))],
        d.Id = "sw_kitchen" ∧ ∃ c cs, d.Capabilities = some c :: cs ∧
          c.State = some (doneState true)) ∧
    ((NewApp (fixedHub [kitchen (Any.bool false)] none)).GetAction
        { Devices := [some (turn "sw_kitchen" true), none] }).1 = Result.panic ∧
    ((NewApp (fixedHub [kitchen (Any.bool false)] none)).GetAction
        { Devices := [some (turn "sw_kitchen" true), none] }).2.api.writes =
      [{ item := "sw_kitchen", cmd := "On", err := none }] := by
  refine ⟨by decide, ⟨_, _, _, rfl, rfl, rfl, rfl⟩, by decide, ?_, by decide, by decide⟩
  rintro ⟨d, hd, -, c, cs, hc, hs⟩
  have hd' : d = kitchenDevice (some (doneState false)) := by simpa using hd
  subst hd'
  simp only [kitchenDevice, List.cons.injEq, Option.some.injEq] at hc
  rw [← hc.1] at hs
  exact absurd hs (by decide)

/-- C5 (evaluation): with `sw_kitchen` in the snapshot and a hub whose
writes fail, the action handler still returns the device with status `DONE`;
the failed write is in the hub log. -/
theorem GetAction_failed_write_reported_done :
    ((NewApp (fixedHub [kitchen (Any.bool false)] (some "connection refused"))).GetAction
        { Devices := [some (turn "sw_kitchen" true)] }).1 =
      Result.ok [kitchenDevice (some (doneState true))] ∧
    ((NewApp (fixedHub [kitchen (Any.bool false)] (some "connection refused"))).GetAction
        { Devices := [some (turn "sw_kitchen" true)] }).2.api.writes =
      [{ item := "sw_kitchen", cmd := "On", err := some "connection refused" }] ∧
    ((NewApp (fixedHub [kitchen (Any.bool false)] (some "connection refused"))).GetAction
        { Devices := [some (turn "no_such_device" true)] }).1 = Result.ok [] := by
  refine ⟨by decide, by decide, by decide⟩

/-- C6 (evaluation): every `FetchDevices` call issues an `AllItems` call and
no call of `FetchDevices` or `GetItem` changes the timestamp; on a hub where
`sw_kitchen` changes between two reads, two `FetchDevices` calls in a row
read the hub twice and the second returns the new state, and so do two
`GetItem` calls one nanosecond apart. -/
theorem FetchDevices_reads_hub_every_time :
    (∀ app : App, app.FetchDevices.2.api.reads = app.api.reads + 1) ∧
    (∀ app : App, app.FetchDevices.2.lastChange = app.lastChange) ∧
    (∀ (app : App) (now : Time) (name : String),
      (app.GetItem now name).2.lastChange = app.lastChange) ∧
    (NewApp changingHub).FetchDevices.1 =
      Result.ok { heap := [kitchenDevice (some ⟨"on", Any.bool true, none⟩)],
                  dev := [("sw_kitchen", 0)] } ∧
    (NewApp changingHub).FetchDevices.2.FetchDevices.1 =
      Result.ok { heap := [kitchenDevice (some ⟨"on", Any.bool false, none⟩)],
                  dev := [("sw_kitchen", 0)] } ∧
    (NewApp changingHub).FetchDevices.2.FetchDevices.2.api.reads = 2 ∧
    ((NewApp changingHub).GetItem someNow "sw_kitchen").1 =
      Result.ok (some (kitchen (Any.bool true))) ∧
    (((NewApp changingHub).GetItem someNow "sw_kitchen").2.GetItem (someNow + 1)
        "sw_kitchen").1 = Result.ok (some (kitchen (Any.bool false))) ∧
    (((NewApp changingHub).GetItem someNow "sw_kitchen").2.GetItem (someNow + 1)
        "sw_kitchen").2.api.reads = 2 := by
  refine ⟨?_, ?_, ?_, by decide, by decide, by decide, by decide, by decide, by decide⟩
  · intro app
    unfold App.FetchDevices Hub.AllItems
    cases app.api.allItems app.api.reads <;> rfl
  · intro app
    unfold App.FetchDevices Hub.AllItems
    cases app.api.allItems app.api.reads <;> rfl
  · intro app now name
    unfold App.GetItem Hub.AllItems
    by_cases h : app.lastChange + Minute < now
    · simp only [h, if_true]
      cases hr : app.api.allItems app.api.reads with
      | ok reply =>
        simp only
        cases (GetItem.fill [] reply).2 <;> rfl
      | fail e => rfl
      | panic => rfl
    · simp only [h, if_false]

/-- C8 (counterexample): with `sw_kitchen` in the snapshot, the batch
`[null, sw_kitchen on=true]` holds a recognized entry with value `true`, yet
the handler panics on the null entry before it and the hub receives no write
at all. -/
theorem OnOff_payload_null_counterexample :
    demoApp.FetchDevices.1 = Result.ok (snapshotOf demoItems) ∧
    "sw_kitchen" ∈ (snapshotOf demoItems).dev.keys ∧
    (turn "sw_kitchen" true).Carries true ∧
    (demoApp.GetAction { Devices := [none, some (turn "sw_kitchen" true)] }).1 =
      Result.panic ∧
    (demoApp.GetAction { Devices := [none, some (turn "sw_kitchen" true)] }).2.api.writes =
      [] := by
  refine ⟨by decide, by decide, ⟨_, _, _, rfl, rfl, rfl, rfl⟩, by decide, by decide⟩

/-- C9 (counterexample): with `sw_kitchen` in the snapshot, the batch
`[sw_kitchen on=true, null]` issues one hub write and then panics on the null
entry: the entry that is not recognized fails the batch and there is no
response whose length could equal the number of writes. -/
theorem GetAction_null_entry_counterexample :
    demoApp.FetchDevices.1 = Result.ok (snapshotOf demoItems) ∧
    (demoApp.GetAction { Devices := [some (turn "sw_kitchen" true), none] }).1 =
      Result.panic ∧
    (demoApp.GetAction { Devices := [some (turn "sw_kitchen" true), none] }).2.api.writes =
      [{ item := "sw_kitchen", cmd := "On", err := none }] ∧
    ¬ ∃ resp,
      (demoApp.GetAction { Devices := [some (turn "sw_kitchen" true), none] }).1 =
        Result.ok resp := by
  refine ⟨by decide, by decide, by decide, ?_⟩
  rintro ⟨resp, h⟩
  have hp : (demoApp.GetAction { Devices := [some (turn "sw_kitchen" true), none] }).1 =
      Result.panic := by decide
  rw [hp] at h
  exact Result.noConfusion h

/-- C1 (witness): the kitchen switch, between a sensor and a later switch of
another name, in the snapshot of the example hub. -/
theorem FetchDevices_switch_bool_witness :
    demoApp.api.allItems demoApp.api.reads = Result.ok (demoItems.map some) ∧
    ∃ snap d, demoApp.FetchDevices.1 = Result.ok snap ∧
      snap.lookup (kitchen (Any.bool true)).Name = some d ∧
      d.Id = (kitchen (Any.bool true)).Name ∧
      d.Capabilities =
        [some
          { Type_ := "devices.capabilities.on_off"
            State := some { Instance := "on", Value := Any.bool true, ActionResult := none } }] :=
  ⟨rfl,
   FetchDevices_switch_bool demoApp [mkItem "t_hall" "temperature" "Hall" (Any.number 21)]
     [mkItem "sw_porch" "switch" "Porch" (Any.str "On")] (kitchen (Any.bool true)) true
     rfl rfl rfl (by decide)⟩

/-- C2 (witness): the snapshot built from the three example items. -/
theorem FetchDevices_keys_witness :
    demoApp.api.allItems demoApp.api.reads = Result.ok (demoItems.map some) ∧
    ∃ snap, demoApp.FetchDevices.1 = Result.ok snap ∧
      (∀ k, k ∈ snap.dev.keys ↔ ∃ i ∈ demoItems, i.Type_ = "switch" ∧ i.Name = k) ∧
      (∀ k, k ∈ snap.dev.keys ↔ ∃ d, snap.lookup k = some d) ∧
      (∀ k d, snap.lookup k = some d → d.Id = k) ∧
      snap.dev.keys.Nodup ∧
      (∀ k d, snap.lookup k = some d →
        ∃ i ∈ demoItems, i.Type_ = "switch" ∧ d.Id = i.Name ∧ d.Description = i.HumanName) ∧
      (∀ (s : Snapshot) (i : Item), i.Type_ ≠ "switch" →
        FetchDevices.step s (some i) = Result.ok s) :=
  ⟨rfl, FetchDevices_keys demoApp demoItems rfl⟩

/-- C3 (witness): a query for an unknown id and for the kitchen switch on the
example snapshot. -/
theorem GetQuery_subset_witness :
    demoApp.FetchDevices.1 = Result.ok (snapshotOf demoItems) ∧
    ∃ devs,
      (demoApp.GetQuery
        { Devices := [turn "zz" true, turn "sw_kitchen" true].map some }).1 =
        Result.ok devs ∧
      devs = [turn "zz" true, turn "sw_kitchen" true].filterMap
        (fun i => (snapshotOf demoItems).lookup i.Id) ∧
      (∀ id, id ∈ devs.map Device.Id ↔
        id ∈ [turn "zz" true, turn "sw_kitchen" true].map DevReq.Id ∧
          id ∈ (snapshotOf demoItems).dev.keys) ∧
      (∀ d ∈ devs, (snapshotOf demoItems).lookup d.Id = some d) ∧
      (∀ reqs' : List DevReq, reqs'.Perm [turn "zz" true, turn "sw_kitchen" true] →
        ∃ devs', (demoApp.GetQuery { Devices := reqs'.map some }).1 = Result.ok devs' ∧
          devs'.Perm devs ∧
          ∀ id, id ∈ devs'.map Device.Id ↔ id ∈ devs.map Device.Id) :=
  ⟨by decide,
   GetQuery_subset demoApp (snapshotOf demoItems)
     [turn "zz" true, turn "sw_kitchen" true] (by decide)⟩

/-- C4 (witness): a batch that turns the kitchen switch off, then on, then on
again, and the porch switch off; the second entry is followed by no different
value for its id. -/
theorem GetAction_done_witness :
    ∃ resp d,
      (demoApp.GetAction
        { Devices := ([turn "sw_kitchen" false] ++
            turn "sw_kitchen" true ::
              [turn "sw_kitchen" true, turn "sw_porch" false]).map some }).1 =
        Result.ok resp ∧
      d ∈ resp ∧ d.Id = (turn "sw_kitchen" true).Id ∧
      ∃ c cs, d.Capabilities = some c :: cs ∧
        c.State = some
          { Instance := "on", Value := Any.bool true,
            ActionResult := some { Status := "DONE", ErrorCode := "", ErrorMessage := "" } } :=
  GetAction_done demoApp (snapshotOf demoItems) [turn "sw_kitchen" false]
    [turn "sw_kitchen" true, turn "sw_porch" false] (turn "sw_kitchen" true) true
    (by decide) (by decide) ⟨_, _, _, rfl, rfl, rfl, rfl⟩
    (by
      intro j hj hid w hw
      have hv := (DevReq.onValue_eq_some_iff j w).mpr hw
      simp only [List.mem_cons, List.mem_singleton, List.not_mem_nil, or_false] at hj
      rcases hj with rfl | rfl
      · exact (Option.some.inj hv).symm
      · exact absurd hid (by decide))

/-- C7 (witness): a stale cache holding one item in front of a hub whose
reads fail. -/
theorem read_failure_propagates_witness :
    staleApp.api.allItems staleApp.api.reads = Result.fail "connection refused" ∧
    staleApp.lastChange + Minute < someNow ∧
    (staleApp.GetItem someNow "sw_kitchen").1 = Result.fail "connection refused" ∧
    (staleApp.GetItem someNow "sw_kitchen").2.items = staleApp.items ∧
    (staleApp.GetItem someNow "sw_kitchen").2.lastChange = staleApp.lastChange ∧
    staleApp.FetchDevices.1 = Result.fail "connection refused" ∧
    staleApp.FetchDevices.2.items = staleApp.items ∧
    staleApp.FetchDevices.2.lastChange = staleApp.lastChange :=
  ⟨rfl, by decide,
   ((read_failure_propagates staleApp someNow "sw_kitchen" "connection refused" rfl).1
      (by decide)).1,
   ((read_failure_propagates staleApp someNow "sw_kitchen" "connection refused" rfl).1
      (by decide)).2.1,
   ((read_failure_propagates staleApp someNow "sw_kitchen" "connection refused" rfl).1
      (by decide)).2.2,
   (read_failure_propagates staleApp someNow "sw_kitchen" "connection refused" rfl).2⟩

/-- C8 (witness): the writes issued for a batch that names the kitchen switch
and an unknown id and then holds a null entry followed by one more entry. -/
theorem OnOff_payload_witness :
    demoApp.FetchDevices.1 = Result.ok (snapshotOf demoItems) ∧
    (demoApp.GetAction
      { Devices := [turn "sw_kitchen" false, turn "zz" true].map some ++
          [none, some (turn "sw_kitchen" true)] }).2.api.writes =
      demoApp.api.writes ++ [turn "sw_kitchen" false, turn "zz" true].filterMap (fun i =>
        if i.Id ∈ (snapshotOf demoItems).dev.keys then
          i.onValue.map (fun v =>
            HubWrite.mk i.Id (OnOff v) (demoApp.api.itemCommand i.Id (OnOff v)))
        else none) :=
  ⟨by decide,
   (OnOff_payload demoApp (snapshotOf demoItems) [turn "sw_kitchen" false, turn "zz" true]
     [none, some (turn "sw_kitchen" true)] (by decide) (Or.inr ⟨_, rfl⟩)).2.2.2.2.1⟩

/-- C9 (witness): the response to a batch naming the kitchen switch and an
unknown id. -/
theorem GetAction_recognized_witness :
    demoApp.FetchDevices.1 = Result.ok (snapshotOf demoItems) ∧
    ∃ resp,
      (demoApp.GetAction
        { Devices := [turn "sw_kitchen" false, turn "zz" true].map some }).1 =
        Result.ok resp ∧
      resp.map Device.Id =
        ([turn "sw_kitchen" false, turn "zz" true].filter
          (DevReq.recognized (snapshotOf demoItems).dev.keys)).map DevReq.Id :=
  ⟨by decide,
   (GetAction_recognized demoApp (snapshotOf demoItems)
     [turn "sw_kitchen" false, turn "zz" true] (by decide)).imp
     (fun _ h => ⟨h.1, h.2.1⟩)⟩

end Alice
